import Mathlib

/-!
Verification of the go-irodsclient transfer engine and session layer
(src/irods/fs/data_object_bulk.go: the fs transfer code and the session
package). Each Go function relevant to the checked properties is embedded
as an executable Lean definition; theorems settle the spec claims.
-/

/-! ## Task partitioning (UploadDataObjectParallel lines 371-383,
DownloadDataObjectParallel lines 708-719, DownloadDataObjectParallelResumable
lines 988-999) -/

/-- Chunk length per task, as computed by the Go code:
lengthPerThread := fileLength / numTasks; if fileLength % numTasks > 0 then
lengthPerThread++.  For positive arguments Go int64 division truncates, which
matches Nat division. -/
def lengthPerThread (fileLength numTasks : Nat) : Nat :=
  if fileLength % numTasks > 0 then fileLength / numTasks + 1
  else fileLength / numTasks

/-- The task-launch loop: offset starts at 0 and advances by the per-thread
length after each launched task (offset += lengthPerThread). -/
def offsetsLoop (l : Nat) : Nat → Nat → List Nat
  | 0, _ => []
  | Nat.succ k, off => off :: offsetsLoop l k (off + l)

/-- Offsets handed to the numTasks workers, in launch order. -/
def taskOffsets (fileLength numTasks : Nat) : List Nat :=
  offsetsLoop (lengthPerThread fileLength numTasks) numTasks 0

/-- The byte range task i actually writes: its writes are sequential from its
offset and are clipped at fileLength because both the local ReadAt (upload)
and the remote read (download) return EOF at the end of the object. -/
def writtenRange (fileLength numTasks i : Nat) : Finset Nat :=
  Finset.Ico (i * lengthPerThread fileLength numTasks)
    (min fileLength ((i + 1) * lengthPerThread fileLength numTasks))

theorem lengthPerThread_pos (N T : Nat) (hN : 0 < N) : 0 < lengthPerThread N T := by
  have hdm := Nat.div_add_mod N T
  unfold lengthPerThread
  split
  · exact Nat.succ_pos _
  · rename_i h
    rcases Nat.eq_zero_or_pos (N / T) with hq | hq
    · rw [hq] at hdm
      simp at hdm
      omega
    · exact hq

theorem le_mul_lengthPerThread (N T : Nat) (hT : 0 < T) :
    N ≤ T * lengthPerThread N T := by
  have hdm := Nat.div_add_mod N T
  have hmod := Nat.mod_lt N hT
  unfold lengthPerThread
  split
  · rw [Nat.mul_succ]
    omega
  · rename_i h
    omega

theorem offsetsLoop_get (l : Nat) (k : Nat) (off i : Nat) (h : i < k) :
    (offsetsLoop l k off)[i]? = some (off + i * l) := by
  induction k generalizing off i with
  | zero => omega
  | succ k2 ih =>
    cases i with
    | zero => simp [offsetsLoop]
    | succ i2 =>
      have hi2 : i2 < k2 := by omega
      simp only [offsetsLoop, List.getElem?_cons_succ]
      rw [ih (off + l) i2 hi2]
      have : off + l + i2 * l = off + (i2 + 1) * l := by ring
      rw [this]

theorem writtenRange_disjoint_of_lt (N T i j : Nat) (hij : i < j) :
    Disjoint (writtenRange N T i) (writtenRange N T j) := by
  rw [Finset.disjoint_left]
  intro a hai haj
  simp only [writtenRange, Finset.mem_Ico] at hai haj
  have h1 : a < (i + 1) * lengthPerThread N T :=
    lt_of_lt_of_le hai.2 (min_le_right _ _)
  have h2 : (i + 1) * lengthPerThread N T ≤ j * lengthPerThread N T :=
    Nat.mul_le_mul_right _ hij
  have h3 : j * lengthPerThread N T ≤ a := haj.1
  omega

/-- C1: for a parallel transfer of size N > 0 split over T > 1 tasks with
L = ceil(N/T), the launch loop assigns task i the offset i*L, the byte ranges
actually written are [i*L, min(N, (i+1)*L)), they are pairwise disjoint, their
union is exactly [0, N), and no byte at or past offset N is written. -/
theorem parallel_tasks_tile (N T : Nat) (hN : 0 < N) (hT : 1 < T) :
    (∀ i, i < T → (taskOffsets N T)[i]? = some (i * lengthPerThread N T)) ∧
    (∀ i j, i < T → j < T → i ≠ j →
      Disjoint (writtenRange N T i) (writtenRange N T j)) ∧
    (Finset.range T).biUnion (writtenRange N T) = Finset.Ico 0 N ∧
    (∀ i b, b ∈ writtenRange N T i → b < N) := by
  have hTpos : 0 < T := by omega
  have hL : 0 < lengthPerThread N T := lengthPerThread_pos N T hN
  have hNle : N ≤ T * lengthPerThread N T := le_mul_lengthPerThread N T hTpos
  refine ⟨?_, ?_, ?_, ?_⟩
  · intro i hi
    unfold taskOffsets
    rw [offsetsLoop_get _ _ _ _ hi]
    rw [Nat.zero_add]
  · intro i j hi hj hne
    rcases Nat.lt_or_ge i j with hlt | hge
    · exact writtenRange_disjoint_of_lt N T i j hlt
    · have hlt : j < i := by omega
      exact (writtenRange_disjoint_of_lt N T j i hlt).symm
  · apply Finset.ext
    intro b
    simp only [Finset.mem_biUnion, Finset.mem_range, writtenRange, Finset.mem_Ico]
    constructor
    · rintro ⟨i, hi, hlo, hhi⟩
      have := lt_of_lt_of_le hhi (min_le_left _ _)
      omega
    · rintro ⟨hb0, hbN⟩
      refine ⟨b / lengthPerThread N T, ?_, ?_, ?_⟩
      · rw [Nat.div_lt_iff_lt_mul hL]
        omega
      · exact Nat.div_mul_le_self b _
      · have hdm := Nat.div_add_mod b (lengthPerThread N T)
        have hm := Nat.mod_lt b hL
        rw [Nat.mul_comm] at hdm
        rw [Nat.lt_min]
        constructor
        · exact hbN
        · rw [Nat.succ_mul]
          omega
  · intro i b hb
    simp only [writtenRange, Finset.mem_Ico] at hb
    have := lt_of_lt_of_le hb.2 (min_le_left _ _)
    omega

/-- Witness for C1 at N = 10, T = 4 (L = 3, ranges [0,3),[3,6),[6,9),[9,10)). -/
theorem parallel_tasks_tile_witness :
    0 < 10 ∧ 1 < 4 ∧
    ((∀ i, i < 4 → (taskOffsets 10 4)[i]? = some (i * lengthPerThread 10 4)) ∧
     (∀ i j, i < 4 → j < 4 → i ≠ j →
       Disjoint (writtenRange 10 4 i) (writtenRange 10 4 j)) ∧
     (Finset.range 4).biUnion (writtenRange 10 4) = Finset.Ico 0 10 ∧
     (∀ i b, b ∈ writtenRange 10 4 i → b < 10)) :=
  ⟨by decide, by decide, parallel_tasks_tile 10 4 (by decide) (by decide)⟩

/-! ## Session share map (session package).  Connections are identified by
Nat ids; the Go map from connection pointer to share count is modelled as an
association list in some iteration order (Go map iteration order is
unspecified, so theorems quantify over the list). -/

/-- Look up a connection's share count (map read sess.sharedConnections[conn]). -/
def lookupShare : List (Nat × Nat) → Nat → Option Nat
  | [], _ => none
  | (c, k) :: rest, c0 => if c = c0 then some k else lookupShare rest c0

/-- Overwrite a connection's share count (map write). -/
def setShare : List (Nat × Nat) → Nat → Nat → List (Nat × Nat)
  | [], _, _ => []
  | (c, k) :: rest, c0, k0 =>
    if c = c0 then (c0, k0) :: rest else (c, k) :: setShare rest c0 k0

/-- Delete a connection's entry (delete(sess.sharedConnections, conn)). -/
def removeShare : List (Nat × Nat) → Nat → List (Nat × Nat)
  | [], _ => []
  | (c, k) :: rest, c0 => if c = c0 then rest else (c, k) :: removeShare rest c0

/-- Record a freshly pooled connection in the share map: increment when already
present, else insert with count 1 (AcquireConnection lines 1205-1211 and
AcquireConnectionsMulti lines 1274-1280). -/
def incShare (shared : List (Nat × Nat)) (c : Nat) : List (Nat × Nat) :=
  match lookupShare shared c with
  | some k => setShare shared c (k + 1)
  | none => shared ++ [(c, 1)]

/-- Insert into the deduplicated result set (Go map connections[conn] = true). -/
def listInsertUnique (l : List Nat) (c : Nat) : List Nat :=
  if c ∈ l then l else l ++ [c]

/-! ## AcquireConnectionsMulti (session package lines 1247-1312).
The pool is modelled as the list of answers successive getConnectionFromPool
calls would give (some conn, or none for an error); an empty list means
AvailableConnections() returned 0.  The share-map top-up loop has no own
progress guarantee, so it is run on fuel: a none result means the loop was
still running after that many outer iterations, for every fuel. -/

/-- One pass of the inner range loop over the share map: each entry gets its
count incremented and its connection added to the result set, and the pass
stops once connectionsInNeed reaches zero. -/
def topUpPass : List (Nat × Nat) → List Nat → Nat → (List (Nat × Nat) × List Nat × Nat)
  | [], acc, needed => ([], acc, needed)
  | (c, k) :: rest, acc, needed =>
    let acc2 := listInsertUnique acc c
    let needed2 := needed - 1
    if needed2 = 0 then ((c, k + 1) :: rest, acc2, 0)
    else
      let res := topUpPass rest acc2 needed2
      ((c, k + 1) :: res.1, res.2.1, res.2.2)

/-- The outer loop: for connectionsInNeed > 0, run another pass over the share
map.  Fuel counts outer iterations. -/
def topUpLoop : Nat → List (Nat × Nat) → List Nat → Nat → Option (List (Nat × Nat) × List Nat)
  | 0, _, _, _ => none
  | Nat.succ fuel, shared, acc, needed =>
    if needed = 0 then some (shared, acc)
    else
      let res := topUpPass shared acc needed
      topUpLoop fuel res.1 res.2.1 res.2.2

/-- The first phase of AcquireConnectionsMulti: up to number pool pulls,
breaking when the pool has no availability (empty list) or
getConnectionFromPool errors (none entry). -/
def poolPhase : Nat → List (Option Nat) → List Nat → List (Nat × Nat) →
    (List Nat × List (Nat × Nat))
  | 0, _, acc, shared => (acc, shared)
  | Nat.succ _, [], acc, shared => (acc, shared)
  | Nat.succ _, none :: _, acc, shared => (acc, shared)
  | Nat.succ n, some c :: rest, acc, shared =>
    poolPhase n rest (listInsertUnique acc c) (incShare shared c)

/-- AcquireConnectionsMulti: pool phase, then the share-map top-up loop run on
the given fuel; some gives the deduplicated connection list returned with a
nil error, none means the call had not returned within the fuel. -/
def acquireConnectionsMulti (fuel number : Nat) (pool : List (Option Nat))
    (shared : List (Nat × Nat)) : Option (List Nat) :=
  let res := poolPhase number pool [] shared
  let needed := number - res.1.length
  match topUpLoop fuel res.2 res.1 needed with
  | none => none
  | some res2 => some res2.2

theorem topUpLoop_empty_shared (fuel : Nat) (acc : List Nat) (needed : Nat)
    (h : needed ≠ 0) : topUpLoop fuel [] acc needed = none := by
  induction fuel with
  | zero => rfl
  | succ fuel2 ih =>
    unfold topUpLoop
    rw [if_neg h]
    exact ih

/-- C2 (refuted): with no connection obtainable from the pool and an empty
share map, AcquireConnectionsMulti(n) for n >= 1 never returns: the top-up
loop makes no progress over the empty map, for every fuel bound. -/
theorem acquire_connections_multi_hangs (fuel n : Nat) (h : 1 ≤ n) :
    acquireConnectionsMulti fuel n [] [] = none := by
  unfold acquireConnectionsMulti
  have hp : poolPhase n [] [] [] = ([], []) := by
    cases n with
    | zero => omega
    | succ n2 => rfl
  rw [hp]
  simp only [List.length_nil, Nat.sub_zero]
  rw [topUpLoop_empty_shared fuel [] n (by omega)]

/-- Witness for the C2 refutation at n = 1 with fuel 100. -/
theorem acquire_connections_multi_hangs_witness :
    1 ≤ 1 ∧ acquireConnectionsMulti 100 1 [] [] = none :=
  ⟨by decide, acquire_connections_multi_hangs 100 1 (by decide)⟩

/-! ## Local-file pre-creation before parallel download workers start.
DownloadDataObjectParallel line 532 calls os.Create(localPath), which in Go is
OpenFile with O_RDWR|O_CREATE|O_TRUNC.  DownloadDataObjectParallelResumable
line 790 calls os.OpenFile(localPath, O_RDWR|O_CREATE, 0666) - no O_TRUNC.
File content is modelled as a byte list; none means the file did not exist. -/

/-- Open flags relevant to the pre-create step. -/
structure OpenFlags where
  rdwr : Bool
  create : Bool
  trunc : Bool

/-- Content of the local file after open-then-close with the given flags:
a missing file is created empty, an existing file is emptied only under
O_TRUNC. -/
def openFileEffect (flags : OpenFlags) (existing : Option (List Nat)) : List Nat :=
  match existing with
  | none => []
  | some content => if flags.trunc then [] else content

/-- Flags of Go os.Create (O_RDWR|O_CREATE|O_TRUNC). -/
def osCreateFlags : OpenFlags := OpenFlags.mk true true true

/-- Flags used at line 790 of the resumable download (O_RDWR|O_CREATE). -/
def resumableOpenFlags : OpenFlags := OpenFlags.mk true true false

/-- Local-file state after the pre-create step of the non-resumable parallel
download (line 532). -/
def downloadParallelPreCreate (existing : Option (List Nat)) : List Nat :=
  openFileEffect osCreateFlags existing

/-- Local-file state after the pre-create step of the resumable parallel
download (line 790). -/
def downloadParallelResumablePreCreate (existing : Option (List Nat)) : List Nat :=
  openFileEffect resumableOpenFlags existing

/-- C3 counterexample: the resumable download's pre-create step does not
truncate; applied to an existing one-byte file it leaves the byte in place,
so the claim that both download paths truncate to zero is false. -/
theorem resumable_precreate_not_truncating :
    downloadParallelResumablePreCreate (some [7]) = [7] ∧
    downloadParallelResumablePreCreate (some [7]) ≠ [] :=
  ⟨rfl, by decide⟩

/-- C3 amended: the non-resumable parallel download pre-creates the local file
truncated to zero length, while the resumable parallel download creates the
file only if missing and preserves any existing content (no truncation). -/
theorem precreate_amended (content : List Nat) :
    downloadParallelPreCreate (some content) = [] ∧
    downloadParallelPreCreate none = [] ∧
    downloadParallelResumablePreCreate none = [] ∧
    downloadParallelResumablePreCreate (some content) = content :=
  ⟨rfl, rfl, rfl, rfl⟩

/-! ## Resume journal lifecycle in DownloadDataObjectParallelResumable
(lines 768-787 and 1002-1017). -/

/-- Modelled from the spec: GetOrNewDataObjectTransferStatusLocal lives in
data_object_transfer_status.go, which is not under src/; per the spec it opens
an existing resume journal alongside the local path and returns its header, or
builds a fresh header carrying the requested task count when no journal
exists.  Only the header's task count (Threads) matters here. -/
def getOrNewTransferStatusThreads (existingJournalThreads : Option Nat)
    (requestedTasks : Nat) : Nat :=
  match existingJournalThreads with
  | some t => t
  | none => requestedTasks

/-- Outcome of the journal bookkeeping around a resumable download. -/
structure ResumableJournalOutcome where
  numTasks : Nat
  journalClosed : Bool
  journalDeleted : Bool

/-- Journal handling of DownloadDataObjectParallelResumable: line 774 replaces
numTasks with the journal's Threads value; after the workers join, a drained
error leads to CloseStatusFile only (lines 1004-1007), success leads to
CloseStatusFile then DeleteStatusFile (lines 1009-1017). -/
def resumableJournalRun (existingJournalThreads : Option Nat)
    (requestedTasks : Nat) (anyWorkerFailed : Bool) : ResumableJournalOutcome :=
  let tasks := getOrNewTransferStatusThreads existingJournalThreads requestedTasks
  if anyWorkerFailed then ResumableJournalOutcome.mk tasks true false
  else ResumableJournalOutcome.mk tasks true true

/-- C5: an existing journal's task count overrides the caller's request for the
partitioning (in particular whenever they differ); the journal is always
closed; and it is deleted exactly when no worker enqueued an error. -/
theorem resumable_journal_behavior (existing : Option Nat) (req : Nat)
    (fail : Bool) :
    (∀ j, existing = some j → (resumableJournalRun existing req fail).numTasks = j) ∧
    (resumableJournalRun existing req fail).journalClosed = true ∧
    (resumableJournalRun existing req fail).journalDeleted = !fail := by
  refine ⟨?_, ?_, ?_⟩
  · intro j hj
    cases fail <;> simp [resumableJournalRun, getOrNewTransferStatusThreads, hj]
  · cases fail <;> rfl
  · cases fail <;> rfl

/-- Witness for C5: journal recorded 3 tasks, caller asks for 8, one run that
fails and one that succeeds. -/
theorem resumable_journal_behavior_witness :
    ((∀ j, (some 3 : Option Nat) = some j →
        (resumableJournalRun (some 3) 8 true).numTasks = j) ∧
      (resumableJournalRun (some 3) 8 true).journalClosed = true ∧
      (resumableJournalRun (some 3) 8 true).journalDeleted = !true) ∧
    (resumableJournalRun (some 3) 8 false).journalDeleted = !false :=
  ⟨resumable_journal_behavior (some 3) 8 true,
    (resumable_journal_behavior (some 3) 8 false).2.2⟩

/-! ## Session initialization (NewIRODSSession, session package lines
1046-1115). -/

/-- The literal client-user value that marks an anonymous account. -/
def anonymousUser : String := "anonymous"

/-- Transaction flags (startNewTransaction, poormansRollbackFail) computed by
NewIRODSSession: they start as (config.StartNewTransaction, false); an
anonymous client user forces (false, true); otherwise, when startNewTransaction
is set, a PoorMansRollback probe is run and a probe failure sets
poormansRollbackFail. -/
def newSessionFlags (clientUser : String) (configStartNewTransaction : Bool)
    (probeRollbackFails : Bool) : Bool × Bool :=
  let startNew := configStartNewTransaction
  let rollbackFail := false
  let startNew2 := if clientUser = anonymousUser then false else startNew
  let rollbackFail2 := if clientUser = anonymousUser then true else rollbackFail
  if startNew2 then
    (startNew2, if probeRollbackFails then true else rollbackFail2)
  else (startNew2, rollbackFail2)

/-- C8: for an account whose client user is the literal string that spells
anonymous, session initialization yields startNewTransaction = false and
poormansRollbackFail = true, whatever the configured value and whatever a
probe would have said. -/
theorem anonymous_forces_transaction_flags :
    anonymousUser = "anonymous" ∧
    ∀ configStart probeFails : Bool,
      newSessionFlags anonymousUser configStart probeFails = (false, true) := by
  refine ⟨rfl, ?_⟩
  intro configStart probeFails
  rfl

/-! ## Parallel-download worker retry loop (DownloadDataObjectParallel lines
675-705, DownloadDataObjectParallelResumable lines 955-985).  A trial is the
inner closure doing open/seek/read/write; the loop retries a trial forever as
long as the failure left the connection's socket-failed flag set. -/

/-- What one trial call produced, as seen by the retry loop: nil (ok), an
error with the connection's socket-failed flag set (sockFail, carrying the
lastOffset the trial had reached), or an error with the flag clear. -/
inductive TrialResult where
  | ok
  | sockFail (newOffset : Nat)
  | errOther (code : Nat)

/-- Session operations a worker performs while retrying. -/
inductive SessionOp where
  | ret (conn : Nat)
  | acq (conn : Nat)

/-- How the worker ended. -/
inductive WorkerOutcome where
  | done (finalOffset retries : Nat)
  | enqueued (code finalOffset retries : Nat)
  | connAcquireFailed (retries : Nat)

/-- The for-loop at lines 675-705: run a trial; nil means done; with the
socket-failed flag set, return the current connection, acquire a fresh one
from the supply (none models an AcquireConnection error, which enqueues and
aborts) and retry from the offset the trial reached; any other error is
enqueued and the task aborts.  The trial-result list is the oracle for the
successive trial calls; none means the loop was still running when the
oracle ran out. -/
def workerRetryLoop (supply : Nat → Option Nat) :
    List TrialResult → Nat → Nat → Nat → List SessionOp →
    Option (WorkerOutcome × List SessionOp)
  | [], _, _, _, _ => none
  | TrialResult.ok :: _, _, off, r, ops => some (WorkerOutcome.done off r, ops)
  | TrialResult.errOther e :: _, _, off, r, ops =>
    some (WorkerOutcome.enqueued e off r, ops)
  | TrialResult.sockFail newOff :: rest, conn, _, r, ops =>
    match supply r with
    | none =>
      some (WorkerOutcome.connAcquireFailed (r + 1), ops ++ [SessionOp.ret conn])
    | some conn2 =>
      workerRetryLoop supply rest conn2 newOff (r + 1)
        (ops ++ [SessionOp.ret conn, SessionOp.acq conn2])

/-- The return-then-acquire trace the loop is expected to leave after a given
number of socket-failure retries. -/
def expectedRetryOps (supply : Nat → Nat) : Nat → Nat → Nat → List SessionOp
  | _, _, 0 => []
  | conn, r, Nat.succ k =>
    SessionOp.ret conn :: SessionOp.acq (supply r) ::
      expectedRetryOps supply (supply r) (r + 1) k

theorem workerRetryLoop_sock_failures (supply : Nat → Nat) (offs : List Nat) :
    ∀ conn off r ops,
      workerRetryLoop (fun i => some (supply i))
          (offs.map TrialResult.sockFail ++ [TrialResult.ok]) conn off r ops =
        some (WorkerOutcome.done (offs.getLastD off) (r + offs.length),
          ops ++ expectedRetryOps supply conn r offs.length) := by
  induction offs with
  | nil =>
    intro conn off r ops
    simp [workerRetryLoop, expectedRetryOps]
  | cons o rest ih =>
    intro conn off r ops
    simp only [List.map_cons, List.cons_append, workerRetryLoop, List.append_eq]
    rw [ih (supply r) o (r + 1) (ops ++ [SessionOp.ret conn, SessionOp.acq (supply r)])]
    simp only [List.getLastD_cons, List.length_cons]
    have hlen : r + (rest.length + 1) = r + 1 + rest.length := by omega
    rw [hlen]
    have hops : expectedRetryOps supply conn r (rest.length + 1) =
        SessionOp.ret conn :: SessionOp.acq (supply r) ::
          expectedRetryOps supply (supply r) (r + 1) rest.length := rfl
    rw [hops]
    simp [List.append_assoc]

/-- C4: a worker whose trial fails with the socket-failed flag set returns its
connection, acquires a fresh one and retries from the offset the trial had
reached, with no retry bound - any number of consecutive socket failures
followed by a successful trial ends in done, resuming each time from the last
reached offset, with exactly one return and one acquire per retry; a trial
failure without the socket-failed flag is enqueued at once and the worker
aborts having performed no session operation and no retry. -/
theorem worker_retry_policy (supply : Nat → Nat) (offs : List Nat)
    (conn0 off0 e newOff r : Nat) (rest : List TrialResult) (ops : List SessionOp) :
    (workerRetryLoop (fun i => some (supply i))
        (offs.map TrialResult.sockFail ++ [TrialResult.ok]) conn0 off0 0 [] =
      some (WorkerOutcome.done (offs.getLastD off0) offs.length,
        expectedRetryOps supply conn0 0 offs.length)) ∧
    (workerRetryLoop (fun i => some (supply i))
        (TrialResult.errOther e :: rest) conn0 off0 0 [] =
      some (WorkerOutcome.enqueued e off0 0, [])) ∧
    (workerRetryLoop (fun i => some (supply i))
        (TrialResult.sockFail newOff :: rest) conn0 off0 r ops =
      workerRetryLoop (fun i => some (supply i)) rest (supply r) newOff (r + 1)
        (ops ++ [SessionOp.ret conn0, SessionOp.acq (supply r)])) := by
  refine ⟨?_, rfl, rfl⟩
  have h := workerRetryLoop_sock_failures supply offs conn0 off0 0 []
  simpa using h

/-! ## The trial's copy loop (DownloadDataObjectParallel lines 631-669,
DownloadDataObjectParallelResumable lines 903-949).  Each iteration is an
oracle triple (bytesRead, read error if any, whether another task had already
enqueued an error); local WriteAt is modelled as succeeding, as the claim
concerns remote-read outcomes. -/

/-- Remote read error as classified by the loop. -/
inductive RemoteReadErr where
  | eof
  | failedRead (code : Nat)

/-- How a trial's copy loop ended. -/
inductive TrialOutcome where
  | okTrial (taskRemain : Nat)
  | failedTrial (code : Nat)
  | abortedOther
  | pending

/-- The copy loop: while taskRemain > 0, read; bytes read are written and
subtracted from taskRemain first; then EOF returns nil, any other read error
fails the trial, and finally a non-empty error channel aborts; exhausting the
oracle with taskRemain > 0 is pending. -/
def trialCopyLoop : List (Nat × Option RemoteReadErr × Bool) → Nat → TrialOutcome
  | _, 0 => TrialOutcome.okTrial 0
  | [], Nat.succ _ => TrialOutcome.pending
  | (bytesRead, readErr, othersFailed) :: rest, Nat.succ r =>
    match readErr with
    | some RemoteReadErr.eof => TrialOutcome.okTrial (Nat.succ r - bytesRead)
    | some (RemoteReadErr.failedRead code) => TrialOutcome.failedTrial code
    | none =>
      if othersFailed then TrialOutcome.abortedOther
      else trialCopyLoop rest (Nat.succ r - bytesRead)

/-- C9: a worker that receives EOF from the remote read completes its trial
successfully (returns nil), even when its remaining byte count is still
positive, and a nil trial ends the worker with no enqueued error. -/
theorem eof_completes_task (bytesRead remain : Nat)
    (rest : List (Nat × Option RemoteReadErr × Bool)) (othersFailed : Bool)
    (h : 0 < remain) :
    trialCopyLoop ((bytesRead, some RemoteReadErr.eof, othersFailed) :: rest) remain =
      TrialOutcome.okTrial (remain - bytesRead) ∧
    (bytesRead < remain → 0 < remain - bytesRead) ∧
    (∀ supply conn off,
      workerRetryLoop supply [TrialResult.ok] conn off 0 [] =
        some (WorkerOutcome.done off 0, [])) := by
  refine ⟨?_, by omega, fun supply conn off => rfl⟩
  cases remain with
  | zero => omega
  | succ r => rfl

/-- Witness for C9: remaining 5, EOF after 2 bytes leaves 3 > 0 and the trial
is nevertheless ok. -/
theorem eof_completes_task_witness :
    0 < 5 ∧
    (trialCopyLoop [(2, some RemoteReadErr.eof, false)] 5 =
        TrialOutcome.okTrial (5 - 2) ∧
      (2 < 5 → 0 < 5 - 2) ∧
      (∀ supply conn off,
        workerRetryLoop supply [TrialResult.ok] conn off 0 [] =
          some (WorkerOutcome.done off 0, []))) :=
  ⟨by decide, eof_completes_task 2 5 [] false (by decide)⟩

/-! ## AcquireConnection share-map fallback (session package lines 1217-1243).
The range loop keeps the smallest share count seen so far (taking the first
entry since minShare starts at 0) and breaks as soon as the tracked minimum is
1; the Go per-iteration update followed by the break test is written here as
one conditional per entry, which agrees with it on every input. -/

/-- The scan loop over the share map: m and best are the minShare and
minShareConn accumulators (0 and none at the start). -/
def minShareScan : List (Nat × Nat) → Nat → Option Nat → (Nat × Option Nat)
  | [], m, best => (m, best)
  | (c, k) :: rest, m, best =>
    if m = 0 ∨ k < m then
      (if k = 1 then (k, some c) else minShareScan rest k (some c))
    else
      (if m = 1 then (m, best) else minShareScan rest m best)

/-- The fallback tail of AcquireConnection once the pool yielded nothing: scan
for the minimum share; an empty map bumps the pool-failure counter and errors;
otherwise the found connection's count is set to the found minimum plus one
and the connection is returned. -/
def acquireConnectionFallback (shared : List (Nat × Nat)) (poolFailures : Nat) :
    Option Nat × List (Nat × Nat) × Nat :=
  let res := minShareScan shared 0 none
  match res.2 with
  | none => (none, shared, poolFailures + 1)
  | some c => (some c, setShare shared c (res.1 + 1), poolFailures)

theorem minShareScan_some (l : List (Nat × Nat)) :
    ∀ m c0, 1 ≤ m → (∀ p ∈ l, 1 ≤ p.2) →
    ∃ mm best, minShareScan l m (some c0) = (mm, some best) ∧ 1 ≤ mm ∧ mm ≤ m ∧
      ((mm = m ∧ best = c0) ∨ (best, mm) ∈ l) ∧ ∀ p ∈ l, mm ≤ p.2 := by
  induction l with
  | nil =>
    intro m c0 hm _
    exact ⟨m, c0, rfl, hm, Nat.le_refl m, Or.inl ⟨rfl, rfl⟩, by simp⟩
  | cons hd rest ih =>
    obtain ⟨c, k⟩ := hd
    intro m c0 hm hpos
    have hk : 1 ≤ k := hpos (c, k) (by simp)
    have hrest : ∀ p ∈ rest, 1 ≤ p.2 := fun p hp => hpos p (by simp [hp])
    by_cases hkm : k < m
    · rw [minShareScan, if_pos (Or.inr hkm)]
      by_cases hk1 : k = 1
      · rw [if_pos hk1]
        refine ⟨k, c, rfl, hk, Nat.le_of_lt hkm, Or.inr (by simp), ?_⟩
        intro p hp
        rcases List.mem_cons.mp hp with h1 | h2
        · rw [h1]
        · have := hrest p h2
          omega
      · rw [if_neg hk1]
        obtain ⟨mm, best, heq, h1, h2, h3, h4⟩ := ih k c hk hrest
        refine ⟨mm, best, heq, h1, by omega, ?_, ?_⟩
        · rcases h3 with ⟨hmm, hbest⟩ | hmem
          · exact Or.inr (by simp [hbest, hmm])
          · exact Or.inr (by simp [hmem])
        · intro p hp
          rcases List.mem_cons.mp hp with hh | hh
          · rw [hh]
            omega
          · exact h4 p hh
    · have hcond : ¬(m = 0 ∨ k < m) := by omega
      rw [minShareScan, if_neg hcond]
      by_cases hm1 : m = 1
      · rw [if_pos hm1]
        refine ⟨m, c0, rfl, hm, Nat.le_refl m, Or.inl ⟨rfl, rfl⟩, ?_⟩
        intro p hp
        rcases List.mem_cons.mp hp with hh | hh
        · rw [hh]
          omega
        · have := hrest p hh
          omega
      · rw [if_neg hm1]
        obtain ⟨mm, best, heq, h1, h2, h3, h4⟩ := ih m c0 hm hrest
        refine ⟨mm, best, heq, h1, h2, ?_, ?_⟩
        · rcases h3 with ⟨hmm, hbest⟩ | hmem
          · exact Or.inl ⟨hmm, hbest⟩
          · exact Or.inr (by simp [hmem])
        · intro p hp
          rcases List.mem_cons.mp hp with hh | hh
          · rw [hh]
            omega
          · exact h4 p hh

/-- C6: when the pool yields nothing, AcquireConnection returns an outstanding
shared connection whose pre-increment share count is minimal over the whole
share map, with exactly that count incremented; on an empty share map it
fails and increments the pool-failure metric counter. -/
theorem acquire_fallback_min_share (shared : List (Nat × Nat)) (fails : Nat)
    (hpos : ∀ p ∈ shared, 1 ≤ p.2) :
    (shared = [] →
      acquireConnectionFallback shared fails = (none, shared, fails + 1)) ∧
    (shared ≠ [] → ∃ c mm, (c, mm) ∈ shared ∧ (∀ p ∈ shared, mm ≤ p.2) ∧
      acquireConnectionFallback shared fails =
        (some c, setShare shared c (mm + 1), fails)) := by
  constructor
  · intro h
    subst h
    rfl
  · intro hne
    match shared, hpos with
    | (c, k) :: rest, hpos =>
      have hk : 1 ≤ k := hpos (c, k) (by simp)
      have hrest : ∀ p ∈ rest, 1 ≤ p.2 := fun p hp => hpos p (by simp [hp])
      have hscan : minShareScan ((c, k) :: rest) 0 none =
          (if k = 1 then (k, some c) else minShareScan rest k (some c)) := by
        rw [minShareScan, if_pos (Or.inl rfl)]
      by_cases hk1 : k = 1
      · refine ⟨c, k, by simp, ?_, ?_⟩
        · intro p hp
          rcases List.mem_cons.mp hp with hh | hh
          · rw [hh]
          · have := hrest p hh
            omega
        · unfold acquireConnectionFallback
          rw [hscan, if_pos hk1]
      · obtain ⟨mm, best, heq, h1, h2, h3, h4⟩ := minShareScan_some rest k c hk hrest
        have hmem : (best, mm) ∈ (c, k) :: rest := by
          rcases h3 with ⟨hmm, hbest⟩ | hmemr
          · simp [hbest, hmm]
          · simp [hmemr]
        refine ⟨best, mm, hmem, ?_, ?_⟩
        · intro p hp
          rcases List.mem_cons.mp hp with hh | hh
          · rw [hh]
            omega
          · exact h4 p hh
        · unfold acquireConnectionFallback
          rw [hscan, if_neg hk1, heq]

/-- Witness for C6 on the share map [(3,2),(8,1)] with failure counter 0. -/
theorem acquire_fallback_min_share_witness :
    (∀ p ∈ ([(3, 2), (8, 1)] : List (Nat × Nat)), 1 ≤ p.2) ∧
    (([(3, 2), (8, 1)] : List (Nat × Nat)) ≠ [] →
      ∃ c mm, (c, mm) ∈ ([(3, 2), (8, 1)] : List (Nat × Nat)) ∧
        (∀ p ∈ ([(3, 2), (8, 1)] : List (Nat × Nat)), mm ≤ p.2) ∧
        acquireConnectionFallback [(3, 2), (8, 1)] 0 =
          (some c, setShare [(3, 2), (8, 1)] c (mm + 1), 0)) :=
  ⟨by decide, (acquire_fallback_min_share [(3, 2), (8, 1)] 0 (by decide)).2⟩

/-! ## ReturnConnection (session package lines 1315-1348).  The pool's Return
is modelled as always succeeding (the fs code's pool is external here), so
every path of the Go function returns nil; the observable effect is the state
change below. -/

/-- Session bookkeeping state: the share map, the connections handed back to
the pool, the discarded connections, and the two transaction flags. -/
structure SessionState where
  shared : List (Nat × Nat)
  pooled : List Nat
  discarded : List Nat
  startNewTransaction : Bool
  poormansRollbackFail : Bool

/-- ReturnConnection: a connection absent from the share map is left alone;
otherwise its count is decremented, and at zero the entry is deleted and the
connection is discarded when startNewTransaction and poormansRollbackFail both
hold, else returned to the pool. -/
def returnConnection (s : SessionState) (c : Nat) : SessionState :=
  match lookupShare s.shared c with
  | none => s
  | some share =>
    if share - 1 = 0 then
      if s.startNewTransaction && s.poormansRollbackFail then
        SessionState.mk (removeShare s.shared c) s.pooled (c :: s.discarded)
          s.startNewTransaction s.poormansRollbackFail
      else
        SessionState.mk (removeShare s.shared c) (c :: s.pooled) s.discarded
          s.startNewTransaction s.poormansRollbackFail
    else
      SessionState.mk (setShare s.shared c (share - 1)) s.pooled s.discarded
        s.startNewTransaction s.poormansRollbackFail

/-- C7: ReturnConnection decrements the connection's share count; when the
count reaches zero the entry is removed and the connection is discarded if and
only if both startNewTransaction and poormansRollbackFail are set, otherwise
it goes back to the pool; and on a connection not in the share map the call
leaves the state untouched (the Go function returns nil on every such path). -/
theorem return_connection_spec (s : SessionState) (c : Nat) :
    (lookupShare s.shared c = none → returnConnection s c = s) ∧
    (∀ k, lookupShare s.shared c = some k → 2 ≤ k →
      returnConnection s c = SessionState.mk (setShare s.shared c (k - 1))
        s.pooled s.discarded s.startNewTransaction s.poormansRollbackFail) ∧
    (lookupShare s.shared c = some 1 →
      returnConnection s c =
        (if s.startNewTransaction && s.poormansRollbackFail then
          SessionState.mk (removeShare s.shared c) s.pooled (c :: s.discarded)
            s.startNewTransaction s.poormansRollbackFail
        else
          SessionState.mk (removeShare s.shared c) (c :: s.pooled) s.discarded
            s.startNewTransaction s.poormansRollbackFail)) := by
  refine ⟨?_, ?_, ?_⟩
  · intro h
    simp [returnConnection, h]
  · intro k hk h2
    have hne : ¬(k - 1 = 0) := by omega
    simp [returnConnection, hk, hne]
  · intro h
    simp [returnConnection, h]

/-- Witness for C7: share map [(4,1)], both flags set; returning connection 4
removes it from the map and discards it. -/
theorem return_connection_spec_witness :
    lookupShare [(4, 1)] 4 = some 1 ∧
    returnConnection (SessionState.mk [(4, 1)] [] [] true true) 4 =
      SessionState.mk [] [] [4] true true := by
  constructor
  · rfl
  · have h := (return_connection_spec (SessionState.mk [(4, 1)] [] [] true true) 4).2.2 rfl
    rw [h]
    rfl

/-! ## UploadDataObjectParallel entry checks (lines 209-246).  The serial
fallbacks happen before any parallel machinery runs: an unsupported server
falls back immediately with the caller's resource string, while the empty-file
and one-task fallbacks run after the default-resource substitution.  The
missing util.GetNumTasksForParallelTransfer (not needed beyond its result) is
abstracted as the derive argument. -/

/-- Which code path UploadDataObjectParallel takes, with the resource string
the chosen path receives. -/
inductive UploadPath where
  | serial (resource : String)
  | parallel (resource : String) (numTasks : Int)

/-- Default-resource substitution performed at the head of every transfer
function: an empty resource is replaced by the account default. -/
def resolveResource (defaultResource resource : String) : String :=
  if resource = "" then defaultResource else resource

/-- The dispatch structure of UploadDataObjectParallel: serial when the server
lacks parallel-upload support, when the stat size is zero, or when the task
count (the caller's, or derive(fileLength) for a non-positive caller value)
is one; otherwise parallel. -/
def uploadParallelDispatch (supportParallel : Bool) (defaultResource resource : String)
    (fileLength taskNum : Int) (derive : Int → Int) : UploadPath :=
  if supportParallel = false then UploadPath.serial resource
  else
    let resource2 := resolveResource defaultResource resource
    if fileLength = 0 then UploadPath.serial resource2
    else
      let numTasks := if taskNum ≤ 0 then derive fileLength else taskNum
      if numTasks = 1 then UploadPath.serial resource2
      else UploadPath.parallel resource2 numTasks

/-- The degenerate condition of the claim, stated in the spec's words: no
server support, empty file, or a task count resolving to one. -/
def uploadSerialFallbackCondition (supportParallel : Bool) (fileLength taskNum : Int)
    (derive : Int → Int) : Prop :=
  supportParallel = false ∨ fileLength = 0 ∨
    (if taskNum ≤ 0 then derive fileLength else taskNum) = 1

theorem resolveResource_idem (d r : String) :
    resolveResource d (resolveResource d r) = resolveResource d r := by
  by_cases hr : r = "" <;> by_cases hd : d = "" <;> simp [resolveResource, hr, hd]

/-- C10: under the degenerate condition, UploadDataObjectParallel takes the
serial UploadDataObject path, handing it a resource string with the same
resolved value as the caller's - and since UploadDataObject itself starts with
the same default-resource substitution, its behavior on that call is exactly
the serial upload of the caller's arguments. -/
theorem upload_parallel_degenerate_serial (supportParallel : Bool)
    (d r : String) (fileLength taskNum : Int) (derive : Int → Int)
    (h : uploadSerialFallbackCondition supportParallel fileLength taskNum derive) :
    ∃ r2, uploadParallelDispatch supportParallel d r fileLength taskNum derive =
        UploadPath.serial r2 ∧
      resolveResource d r2 = resolveResource d r := by
  cases supportParallel with
  | false => exact ⟨r, rfl, rfl⟩
  | true =>
    rcases h with hsup | hlen | htask
    · exact absurd hsup (by simp)
    · refine ⟨resolveResource d r, ?_, resolveResource_idem d r⟩
      simp [uploadParallelDispatch, hlen]
    · by_cases hlen : fileLength = 0
      · refine ⟨resolveResource d r, ?_, resolveResource_idem d r⟩
        simp [uploadParallelDispatch, hlen]
      · refine ⟨resolveResource d r, ?_, resolveResource_idem d r⟩
        simp [uploadParallelDispatch, hlen, htask]

/-- Sample account default resource for the C10 witness. -/
def sampleDefaultResource : String := "demoResc"

/-- Sample empty caller resource for the C10 witness. -/
def sampleEmptyResource : String := ""

/-- Witness for C10: parallel-capable server, empty file, explicit task count
5; the dispatch still takes the serial path. -/
theorem upload_parallel_degenerate_serial_witness :
    uploadSerialFallbackCondition true 0 5 (fun _ => 4) ∧
    ∃ r2, uploadParallelDispatch true sampleDefaultResource sampleEmptyResource
        0 5 (fun _ => 4) = UploadPath.serial r2 ∧
      resolveResource sampleDefaultResource r2 =
        resolveResource sampleDefaultResource sampleEmptyResource :=
  ⟨Or.inr (Or.inl rfl),
    upload_parallel_degenerate_serial true sampleDefaultResource
      sampleEmptyResource 0 5 (fun _ => 4) (Or.inr (Or.inl rfl))⟩
